import Mathlib

/-!
Verification of the EPUB builder in `src/mangadex_downloader/format/epub.py`.

The Python module is shallowly embedded below: the `EpubPlugin` class becomes
a state structure with explicit state passing, document trees built with
BeautifulSoup become values of an XML `Node` type, and the zip archive written
by `EpubPlugin.write` becomes a list of entries recording name, payload and
compression method.  Python f-strings such as `f'XHTML_{path}_{pos}'`
interpolate naturals with their decimal representation, embedded as
`Nat.repr`; the first section develops the facts about decimal rendering
(injectivity, digit-only characters) that the identifier-scheme claims need.
-/

/-- Decimal digit characters of `n`, most significant first.  This is the list
underlying `Nat.repr` (see `repr_data`), restated as a fuel-free recursion so
that it can be reasoned about by well-founded induction. -/
def natChars (n : Nat) : List Char :=
  if _h : n < 10 then [Nat.digitChar n]
  else natChars (n / 10) ++ [Nat.digitChar (n % 10)]
termination_by n
decreasing_by exact Nat.div_lt_self (by omega) (by omega)

theorem toDigitsCore_eq_natChars :
    ∀ (fuel n : Nat) (ds : List Char), n < fuel →
      Nat.toDigitsCore 10 fuel n ds = natChars n ++ ds := by
  intro fuel
  induction fuel with
  | zero => intro n ds h; omega
  | succ f ih =>
    intro n ds h
    rw [Nat.toDigitsCore]
    by_cases h0 : n / 10 = 0
    · have hn : n < 10 := by omega
      rw [natChars]
      simp [h0, hn, Nat.mod_eq_of_lt hn]
    · have hn : ¬ n < 10 := by
        intro hc
        exact h0 (Nat.div_eq_of_lt hc)
      have hlt : n / 10 < f := by
        have : n / 10 < n := Nat.div_lt_self (by omega) (by omega)
        omega
      rw [if_neg h0, ih (n / 10) _ hlt]
      conv_rhs => rw [natChars]
      rw [dif_neg hn]
      simp [List.append_assoc]

theorem repr_data (n : Nat) : (Nat.repr n).data = natChars n := by
  show (Nat.toDigits 10 n).asString.data = natChars n
  rw [Nat.toDigits, toDigitsCore_eq_natChars (n + 1) n [] (Nat.lt_succ_self n)]
  simp [List.asString]

theorem digitChar_inj_lt : ∀ a < 10, ∀ b < 10,
    Nat.digitChar a = Nat.digitChar b → a = b := by decide

theorem digitChar_isDigit : ∀ a < 10, (Nat.digitChar a).isDigit = true := by decide

theorem natChars_ne_nil (n : Nat) : natChars n ≠ [] := by
  rw [natChars]
  split
  · simp
  · simp

theorem natChars_isDigit : ∀ (n : Nat), ∀ c ∈ natChars n, c.isDigit = true := by
  intro n
  induction n using Nat.strong_induction_on with
  | _ n ih =>
    intro c hc
    rw [natChars] at hc
    split at hc
    · next h =>
      simp at hc
      subst hc
      exact digitChar_isDigit n h
    · next h =>
      simp at hc
      rcases hc with hc | hc
      · exact ih (n / 10) (Nat.div_lt_self (by omega) (by omega)) c hc
      · subst hc
        exact digitChar_isDigit (n % 10) (Nat.mod_lt n (by omega))

theorem underscore_not_mem_natChars (n : Nat) : '_' ∉ natChars n := by
  intro h
  have := natChars_isDigit n '_' h
  simp [Char.isDigit] at this

theorem natChars_inj : ∀ (a b : Nat), natChars a = natChars b → a = b := by
  intro a
  induction a using Nat.strong_induction_on with
  | _ a ih =>
    intro b h
    conv at h => lhs; rw [natChars]
    conv at h => rhs; rw [natChars]
    by_cases ha : a < 10 <;> by_cases hb : b < 10
    · rw [dif_pos ha, dif_pos hb] at h
      simp at h
      exact digitChar_inj_lt a ha b hb h
    · rw [dif_pos ha, dif_neg hb] at h
      exfalso
      have hlen := congrArg List.length h
      simp at hlen
      exact natChars_ne_nil _ hlen
    · rw [dif_neg ha, dif_pos hb] at h
      exfalso
      have hlen := congrArg List.length h
      simp at hlen
      exact natChars_ne_nil _ hlen
    · rw [dif_neg ha, dif_neg hb] at h
      obtain ⟨h1, h2⟩ := List.append_inj' h (by simp)
      have hdiv : a / 10 = b / 10 :=
        ih (a / 10) (Nat.div_lt_self (by omega) (by omega)) (b / 10) h1
      have hmod : a % 10 = b % 10 := by
        simp at h2
        exact digitChar_inj_lt (a % 10) (Nat.mod_lt a (by omega)) (b % 10)
          (Nat.mod_lt b (by omega)) h2
      omega

theorem append_underscore_inj :
    ∀ (l₁ l₂ r₁ r₂ : List Char), '_' ∉ l₁ → '_' ∉ l₂ →
      l₁ ++ '_' :: r₁ = l₂ ++ '_' :: r₂ → l₁ = l₂ ∧ r₁ = r₂ := by
  intro l₁
  induction l₁ with
  | nil =>
    intro l₂ r₁ r₂ h₁ h₂ h
    cases l₂ with
    | nil => simpa using h
    | cons c l₂' =>
      exfalso
      simp at h
      exact h₂ (h.1 ▸ List.mem_cons_self c l₂')
  | cons a l₁' ihl =>
    intro l₂ r₁ r₂ h₁ h₂ h
    cases l₂ with
    | nil =>
      exfalso
      simp at h
      exact h₁ (h.1 ▸ List.mem_cons_self a l₁')
    | cons c l₂' =>
      simp at h
      obtain ⟨hac, hrest⟩ := h
      have h₁' : '_' ∉ l₁' := fun hm => h₁ (List.mem_cons_of_mem a hm)
      have h₂' : '_' ∉ l₂' := fun hm => h₂ (List.mem_cons_of_mem c hm)
      obtain ⟨hl, hr⟩ := ihl l₂' r₁ r₂ h₁' h₂' hrest
      exact ⟨by rw [hac, hl], hr⟩

/-! ## Identifier scheme

The f-strings of `_create_manifest_item`, `_create_spine_item`,
`_create_toc_item` and `create_page` (epub.py lines 350-398), with `path` the
group index and `pos` the 1-based item index. -/

/-- `f'XHTML_{path}_{pos}'` (epub.py line 366). -/
def xhtmlId (g i : Nat) : String :=
  "XHTML_" ++ Nat.repr g ++ "_" ++ Nat.repr i

/-- `f'IMAGES_{path}_{pos}'` (epub.py line 374). -/
def imagesId (g i : Nat) : String :=
  "IMAGES_" ++ Nat.repr g ++ "_" ++ Nat.repr i

/-- `f'xhtml/{path}_{pos}.xhtml'` (epub.py lines 351, 367). -/
def pageHref (g i : Nat) : String :=
  "xhtml/" ++ Nat.repr g ++ "_" ++ Nat.repr i ++ ".xhtml"

/-- `f'images/{path}_{im_name}'` (epub.py line 375). -/
def imageHref (g : Nat) (name : String) : String :=
  "images/" ++ Nat.repr g ++ "_" ++ name

/-- `f'TOC_{path}_{pos}'` (epub.py line 353). -/
def tocId (g i : Nat) : String :=
  "TOC_" ++ Nat.repr g ++ "_" ++ Nat.repr i

/-- `f'TOC_{self._pos}_INIT'` (epub.py line 396). -/
def tocInitId (g : Nat) : String :=
  "TOC_" ++ Nat.repr g ++ "_INIT"

theorem data_of_mid (p : String) (g i : Nat) :
    (p ++ Nat.repr g ++ "_" ++ Nat.repr i).data =
      p.data ++ (natChars g ++ '_' :: natChars i) := by
  simp [String.data_append, repr_data, List.append_assoc]

theorem data_of_mid_suffix (p : String) (g i : Nat) (s : String) :
    (p ++ Nat.repr g ++ "_" ++ Nat.repr i ++ s).data =
      p.data ++ (natChars g ++ '_' :: (natChars i ++ s.data)) := by
  simp [String.data_append, repr_data, List.append_assoc]

/-- Splitting the common pattern `p ++ repr g ++ "_" ++ repr i` of the
identifier scheme: the coordinates are recoverable. -/
theorem mid_inj {g₁ i₁ g₂ i₂ : Nat} {p : String}
    (h : p.data ++ (natChars g₁ ++ '_' :: natChars i₁) =
         p.data ++ (natChars g₂ ++ '_' :: natChars i₂)) :
    g₁ = g₂ ∧ i₁ = i₂ := by
  have h' := List.append_cancel_left h
  obtain ⟨h1, h2⟩ := append_underscore_inj _ _ _ _
    (underscore_not_mem_natChars g₁) (underscore_not_mem_natChars g₂) h'
  exact ⟨natChars_inj _ _ h1, natChars_inj _ _ h2⟩

theorem xhtmlId_inj {g₁ i₁ g₂ i₂ : Nat}
    (h : xhtmlId g₁ i₁ = xhtmlId g₂ i₂) : g₁ = g₂ ∧ i₁ = i₂ := by
  have hd := congrArg String.data h
  rw [xhtmlId, xhtmlId, data_of_mid, data_of_mid] at hd
  exact mid_inj hd

theorem imagesId_inj {g₁ i₁ g₂ i₂ : Nat}
    (h : imagesId g₁ i₁ = imagesId g₂ i₂) : g₁ = g₂ ∧ i₁ = i₂ := by
  have hd := congrArg String.data h
  rw [imagesId, imagesId, data_of_mid, data_of_mid] at hd
  exact mid_inj hd

theorem pageHref_inj {g₁ i₁ g₂ i₂ : Nat}
    (h : pageHref g₁ i₁ = pageHref g₂ i₂) : g₁ = g₂ ∧ i₁ = i₂ := by
  have hd := congrArg String.data h
  rw [pageHref, pageHref, data_of_mid_suffix, data_of_mid_suffix] at hd
  have h' := List.append_cancel_left hd
  obtain ⟨h1, h2⟩ := append_underscore_inj _ _ _ _
    (underscore_not_mem_natChars g₁) (underscore_not_mem_natChars g₂) h'
  exact ⟨natChars_inj _ _ h1, natChars_inj _ _ (List.append_cancel_right h2)⟩

theorem xhtmlId_ne_imagesId (g₁ i₁ g₂ i₂ : Nat) :
    xhtmlId g₁ i₁ ≠ imagesId g₂ i₂ := by
  intro h
  have hd := congrArg String.data h
  rw [xhtmlId, imagesId, data_of_mid, data_of_mid] at hd
  have : "XHTML_".data = ['X', 'H', 'T', 'M', 'L', '_'] := rfl
  rw [this] at hd
  have : "IMAGES_".data = ['I', 'M', 'A', 'G', 'E', 'S', '_'] := rfl
  rw [this] at hd
  simp at hd

theorem ncx_ne_xhtmlId (g i : Nat) : "ncx" ≠ xhtmlId g i := by
  intro h
  have hd := congrArg String.data h
  rw [xhtmlId, data_of_mid] at hd
  have : "XHTML_".data = ['X', 'H', 'T', 'M', 'L', '_'] := rfl
  rw [this] at hd
  have : "ncx".data = ['n', 'c', 'x'] := rfl
  rw [this] at hd
  simp at hd

theorem ncx_ne_imagesId (g i : Nat) : "ncx" ≠ imagesId g i := by
  intro h
  have hd := congrArg String.data h
  rw [imagesId, data_of_mid] at hd
  have : "IMAGES_".data = ['I', 'M', 'A', 'G', 'E', 'S', '_'] := rfl
  rw [this] at hd
  have : "ncx".data = ['n', 'c', 'x'] := rfl
  rw [this] at hd
  simp at hd

/-- A string beginning with prefix `p` cannot equal `t` when the first
`p.length` characters of `t` differ from `p` (also covers `t` shorter
than `p`). -/
theorem append_ne_of_take {p t : String}
    (h : t.data.take p.data.length ≠ p.data) (s : String) : p ++ s ≠ t := by
  intro he
  apply h
  rw [← he, String.data_append, List.take_left]

/-! ## Data model

XML trees (BeautifulSoup tags), the manga metadata, and the pieces of
`EpubPlugin` state. -/

/-- An XML element tree as BeautifulSoup builds it: `new_tag(name, attrs)`
plus appended children, or a text node (`tag.string`).  Doctype nodes and
serialization (`prettify`/`str`) are not modelled. -/
inductive Node where
  | text (s : String)
  | elem (tag : String) (attrs : List (String × String)) (children : List Node)
deriving Repr

mutual

/-- All elements with tag name `t` in a tree, document order. -/
def tagsIn (t : String) : Node → List Node
  | .text _ => []
  | .elem tag attrs children =>
      (if tag = t then [Node.elem tag attrs children] else []) ++ tagsInList t children

def tagsInList (t : String) : List Node → List Node
  | [] => []
  | n :: ns => tagsIn t n ++ tagsInList t ns

end

/-- The value of attribute `a` on an element. -/
def getAttr (a : String) : Node → Option String
  | .text _ => none
  | .elem _ attrs _ => (attrs.find? (fun p => p.1 == a)).map (fun p => p.2)

/-- The manga metadata `EpubPlugin.__init__` consumes (`manga.id`,
`manga.title`, `manga.tags` tag names, `manga.authors`). -/
structure Manga where
  id : String
  title : String
  tags : List String
  authors : List String
deriving Repr, DecidableEq

/-- One downloaded image file: its filesystem path together with the media
type PIL derives from the file's header (`Image.MIME.get(im.format)`,
epub.py line 376).  Opening the file is I/O, so the embedding carries the
derived type alongside the path. -/
structure Img where
  path : String
  mime : String
deriving Repr, DecidableEq

/-- `os.path.basename` for the slash-separated paths the downloader uses. -/
def basename (p : String) : String :=
  (p.splitOn "/").getLastD p

/-- Python `enumerate(l, start=n)`. -/
def enumerateFrom (n : Nat) : List α → List (Nat × α)
  | [] => []
  | x :: xs => (n, x) :: enumerateFrom (n + 1) xs

/-- An `<item>` element of the `<manifest>` tag: its `id`, `href` and
`media-type` attributes. -/
structure ManifestItem where
  id : String
  href : String
  mediaType : String
deriving Repr, DecidableEq

/-- An `<itemref>` element of the `<spine>` tag. -/
structure SpineItem where
  idref : String
deriving Repr, DecidableEq

/-- A `<navPoint>` of the toc.ncx navMap as `_create_nav` builds it
(epub.py lines 234-258): its `id` attribute, the navLabel text, the optional
`<content src=...>` child, and the child navPoints `_create_toc_item` later
appends. -/
inductive NavPoint where
  | mk (id : String) (label : String) (src : Option String) (children : List NavPoint)
deriving Repr

def NavPoint.id : NavPoint → String
  | .mk i _ _ _ => i

def NavPoint.label : NavPoint → String
  | .mk _ l _ _ => l

def NavPoint.src : NavPoint → Option String
  | .mk _ _ s _ => s

def NavPoint.children : NavPoint → List NavPoint
  | .mk _ _ _ c => c

/-- The mutable state of one `EpubPlugin` instance: `self._pos`, the children
of the `<manifest>`, `<spine>` and `<navMap>` tags (`self._manifest`,
`self._spine`, `self._navigation`), and `self._pages`.  The fixed documents
around those children lists are pure functions of this state (below).
`self._pages` is a dict keyed by the consecutive group indices; its insertion
order — which is its iteration order in `write` — is kept as a list of
`(group index, xhtml documents, images)` triples. -/
structure EpubPlugin where
  manga : Manga
  lang : String
  pos : Nat
  manifest : List ManifestItem
  spine : List SpineItem
  navigation : List NavPoint
  pages : List (Nat × List Node × List Img)
deriving Repr

/-- `EpubPlugin.__init__` (epub.py lines 60-86): `_pos = 0`, `_pages = {}`;
`_make_opf` seeds the manifest with the fixed `ncx` item (lines 214-224) and
an empty spine (lines 227-229); `_make_toc` seeds an empty navMap. -/
def initPlugin (manga : Manga) (lang : String) : EpubPlugin :=
  { manga := manga, lang := lang, pos := 0,
    manifest := [⟨"ncx", "toc.ncx", "application/x-dtbncx+xml"⟩],
    spine := [], navigation := [], pages := [] }

/-! ## Operations of `EpubPlugin` -/

/-- `_create_nav` (epub.py lines 234-258): a navPoint with the given id, a
navLabel holding `text`, and a `<content src=...>` child iff `src` is
supplied; no navPoint children yet. -/
def create_nav (id : String) (text : String) (src : Option String) : NavPoint :=
  .mk id text src []

/-- `_create_toc_item` (epub.py lines 350-357): append to `nav` a page-level
navPoint with id `TOC_{path}_{pos}`, label `Page {pos}` and target
`xhtml/{path}_{pos}.xhtml`. -/
def create_toc_item (nav : NavPoint) (path pos : Nat) : NavPoint :=
  .mk nav.id nav.label nav.src
    (nav.children ++ [create_nav (tocId path pos) ("Page " ++ Nat.repr pos) (some (pageHref path pos))])

/-- The first `<item>` of `_create_manifest_item` (epub.py lines 363-370):
the XHTML page. -/
def xhtmlManifestItem (path pos : Nat) : ManifestItem :=
  ⟨xhtmlId path pos, pageHref path pos, "application/xhtml+xml"⟩

/-- The second `<item>` of `_create_manifest_item` (epub.py lines 371-378):
the image, with the PIL-derived media type. -/
def imageManifestItem (path pos : Nat) (image : Img) : ManifestItem :=
  ⟨imagesId path pos, imageHref path (basename image.path), image.mime⟩

/-- The first manifest append of `_create_manifest_item` (epub.py line 381). -/
def appendPageItem (path pos : Nat) (st : EpubPlugin) : EpubPlugin :=
  { st with manifest := st.manifest ++ [xhtmlManifestItem path pos] }

/-- The second manifest append of `_create_manifest_item` (epub.py line 382). -/
def appendImageItem (path pos : Nat) (image : Img) (st : EpubPlugin) : EpubPlugin :=
  { st with manifest := st.manifest ++ [imageManifestItem path pos image] }

/-- `_create_manifest_item` (epub.py lines 359-382): append the page item,
then the image item. -/
def create_manifest_item (path pos : Nat) (image : Img) (st : EpubPlugin) : EpubPlugin :=
  appendImageItem path pos image (appendPageItem path pos st)

/-- `_create_spine_item` (epub.py lines 384-391): append an `<itemref>`
with `idref = XHTML_{path}_{pos}` to the spine. -/
def create_spine_item (path pos : Nat) (st : EpubPlugin) : EpubPlugin :=
  { st with spine := st.spine ++ [⟨xhtmlId path pos⟩] }

/-- The per-image XHTML document built inside `create_page`'s loop
(epub.py lines 402-439); `image` is `os.path.basename(im)`.  The Doctype
node is serialization-level and not modelled. -/
def mkPageDoc (g : Nat) (title : String) (image : String) : Node :=
  .elem "html" [("xmlns", "http://www.w3.org/1999/xhtml")]
    [ .elem "head" [] [.elem "title" [] [.text title]],
      .elem "body" []
        [ .elem "div" []
            [ .elem "img"
                [("alt", image), ("src", "../images/" ++ Nat.repr g ++ "_" ++ image)] [] ] ] ]

/-- The `for pos, im in enumerate(images, start=1)` loop of `create_page`
(epub.py lines 402-445): per image build the page document, then
`_create_manifest_item`, `_create_spine_item`, `_create_toc_item`.  `nav` is
the loop-local group navPoint: its children become visible in the plugin
state only when `create_page` appends `nav` to the navMap after the loop.
Returns the resulting state, the accumulated `xhtml` list, and the extended
`nav`. -/
def pageLoop (g : Nat) (title : String) :
    Nat → List Img → EpubPlugin → NavPoint → EpubPlugin × List Node × NavPoint
  | _, [], st, nav => (st, [], nav)
  | pos, im :: ims, st, nav =>
      let doc := mkPageDoc g title (basename im.path)
      let st' := create_spine_item g pos (create_manifest_item g pos im st)
      let nav' := create_toc_item nav g pos
      let (stf, docs, navf) := pageLoop g title (pos + 1) ims st' nav'
      (stf, doc :: docs, navf)

/-- `create_page` (epub.py lines 393-454): create the group navPoint
`TOC_{self._pos}_INIT` labelled `title` targeting `xhtml/{self._pos}_1.xhtml`,
run the image loop, append the navPoint to the navMap, record
`(xhtml, images)` under group index `self._pos`, and increment `self._pos`. -/
def create_page (title : String) (images : List Img) (st : EpubPlugin) : EpubPlugin :=
  let g := st.pos
  let nav := create_nav (tocInitId g) title (some (pageHref g 1))
  let res := pageLoop g title 1 images st nav
  { res.1 with
      navigation := res.1.navigation ++ [res.2.2],
      pages := res.1.pages ++ [(g, res.2.1, images)],
      pos := g + 1 }

/-- A sequence of `create_page` calls against one plugin, as
`EPUBFile.convert` performs them (epub.py lines 533-539). -/
def runCalls : List (String × List Img) → EpubPlugin → EpubPlugin
  | [], st => st
  | (title, images) :: rest, st => runCalls rest (create_page title images st)

/-! ## The fixed documents and the archive writer -/

/-- `_make_container` (epub.py lines 456-478): the `META-INF/container.xml`
document. -/
def containerDoc : Node :=
  .elem "container"
    [("version", "1.0"), ("xmlns", "urn:oasis:names:tc:opendocument:xmlns:container")]
    [ .elem "rootfiles" []
        [ .elem "rootfile"
            [ ("full-path", "OEBPS/content.opf"),
              ("media-type", "application/oebps-package+xml") ] [] ] ]

mutual

/-- The XML materialization of a navPoint: `<navPoint id=...>` holding the
navLabel, the optional content child, then the appended child navPoints. -/
def NavPoint.toNode : NavPoint → Node
  | .mk i label src children =>
      .elem "navPoint" [("id", i)]
        ([Node.elem "navLabel" [] [Node.elem "text" [] [Node.text label]]]
          ++ (match src with
              | some s => [Node.elem "content" [("src", s)] []]
              | none => [])
          ++ NavPoint.toNodeList children)

def NavPoint.toNodeList : List NavPoint → List Node
  | [] => []
  | n :: ns => NavPoint.toNode n :: NavPoint.toNodeList ns

end

/-- `_make_toc` (epub.py lines 89-126) with the navPoints registered so far:
the `<ncx>` document `write` serializes as `OEBPS/toc.ncx`. -/
def tocDoc (st : EpubPlugin) : Node :=
  .elem "ncx"
    [ ("xmlns", "http://www.daisy.org/z3986/2005/ncx/"), ("version", "2005-1"),
      ("xmlns:ncx", "http://www.daisy.org/z3986/2005/ncx/") ]
    [ .elem "head" []
        [.elem "meta" [("name", "dtb:uid"), ("content", "urn:uuid:" ++ st.manga.id)] []],
      .elem "docTitle" [] [.elem "text" [] [.text st.manga.title]],
      .elem "navMap" [] (NavPoint.toNodeList st.navigation) ]

/-- The author-joining loop of `_make_opf` (epub.py lines 169-175): a comma
between consecutive authors, none after the last. -/
def joinAuthors : List String → String
  | [] => ""
  | [a] => a
  | a :: rest => a ++ "," ++ joinAuthors rest

def manifestItemNode (it : ManifestItem) : Node :=
  .elem "item" [("id", it.id), ("href", it.href), ("media-type", it.mediaType)] []

def spineItemNode (s : SpineItem) : Node :=
  .elem "itemref" [("idref", s.idref)] []

/-- `_make_opf` (epub.py lines 128-229) reassembled around the current
manifest and spine children: the `<package>` document `write` serializes as
`OEBPS/content.opf`.  Note that the `dcterms:modified` meta built at lines
180-186 is never appended to the metadata tag, so it does not appear (and no
clock is needed here). -/
def opfDoc (st : EpubPlugin) : Node :=
  .elem "package"
    [ ("xmlns", "http://www.idpf.org/2007/opf"), ("unique-identifier", "BookID"),
      ("version", "3.0") ]
    [ .elem "metadata"
        [ ("xmlns:dc", "http://purl.org/dc/elements/1.1/"),
          ("xmlns:opf", "http://www.idpf.org/2007/opf") ]
        (st.manga.tags.map (fun t => Node.elem "dc:subject" [] [Node.text t])
          ++ [ Node.elem "dc:creator" [] [Node.text (joinAuthors st.manga.authors)],
               Node.elem "dc:title" [] [Node.text st.manga.title],
               Node.elem "dc:language" [] [Node.text st.lang],
               Node.elem "dc:identifier" [("id", "BookID")]
                 [Node.text ("urn:uuid:" ++ st.manga.id)],
               Node.elem "meta"
                 [("name", "primary-writing-mode"), ("content", "horizontal-rl")] [],
               Node.elem "meta" [("name", "book-type"), ("content", "comic")] [] ]),
      .elem "manifest" [] (st.manifest.map manifestItemNode),
      .elem "spine" [("toc", "ncx")] (st.spine.map spineItemNode) ]

/-- `_make_nav` (epub.py lines 260-342): the `OEBPS/nav.xhtml` document.
Both placeholder anchors point at the literal `xhtml/0_1.xhtml`; the
page-list `<ol>` is appended to the body, not to the page-list `<nav>`,
exactly as the source does. -/
def navDoc (title : String) : Node :=
  .elem "html"
    [("xmlns", "http://www.w3.org/1999/xhtml"), ("xmlns:epub", "http://www.idpf.org/2007/ops")]
    [ .elem "head" []
        [ .elem "title" [] [.text title],
          .elem "meta" [("charset", "utf-8")] [] ],
      .elem "body" []
        [ .elem "nav"
            [ ("xmlns:epub", "http://www.idpf.org/2007/ops"), ("epub:type", "toc"),
              ("id", "toc") ] [],
          .elem "ol" [] [.elem "li" [] [.elem "a" [("href", "xhtml/0_1.xhtml")] [.text title]]],
          .elem "nav" [("epub:type", "page-list")] [],
          .elem "ol" [] [.elem "li" [] [.elem "a" [("href", "xhtml/0_1.xhtml")] [.text title]]] ] ]

/-- The `zipfile` compression constants selectable through
`env.zip_compression_type`. -/
inductive CompressionMethod where
  | stored
  | deflated
  | bzip2
  | lzma
deriving Repr, DecidableEq

/-- The compression configuration `write` reads from `env`
(epub.py lines 494-495). -/
structure ZipConfig where
  compressionType : CompressionMethod
  compressionLevel : Option Int
deriving Repr, DecidableEq

/-- Payload of one archive entry: a literal string (`writestr` of a `str`),
a document tree (`writestr` of a serialized soup; the serialization itself is
not modelled), or a file copied from disk (`zip_obj.write`). -/
inductive EntryData where
  | str (s : String)
  | doc (d : Node)
  | file (path : String)
deriving Repr

/-- One entry of the produced archive: arcname, payload, and the compression
method it is stored with.  `ZipFile.writestr` and `ZipFile.write` without a
per-call `compress_type` argument use the `ZipFile`'s configured compression,
so the method is uniform across entries. -/
structure Entry where
  name : String
  data : EntryData
  method : CompressionMethod
deriving Repr

/-- The per-group archive entries of `EpubPlugin.write` (epub.py lines
512-524): for each `_pages` entry in dict insertion order, its xhtml pages
(`enumerate(xhtml, start=1)`) followed by its images.  The progress-bar
side effects (lines 483-489, 524) are not modelled. -/
def pageEntries (cfg : ZipConfig) (st : EpubPlugin) : List Entry :=
  st.pages.flatMap (fun pg =>
    (enumerateFrom 1 pg.2.1).map (fun pc =>
      ⟨"OEBPS/xhtml/" ++ Nat.repr pg.1 ++ "_" ++ Nat.repr pc.1 ++ ".xhtml",
        .doc pc.2, cfg.compressionType⟩)
    ++ pg.2.2.map (fun im =>
      ⟨"OEBPS/images/" ++ Nat.repr pg.1 ++ "_" ++ basename im.path,
        .file im.path, cfg.compressionType⟩))

/-- The entries `EpubPlugin.write` adds to the archive, in write order
(epub.py lines 497-524): mimetype, container, toc.ncx, content.opf,
nav.xhtml, then the per-group entries. -/
def writtenEntries (cfg : ZipConfig) (st : EpubPlugin) : List Entry :=
  ⟨"mimetype", .str "application/epub+zip", cfg.compressionType⟩ ::
  ⟨"META-INF/container.xml", .doc containerDoc, cfg.compressionType⟩ ::
  ⟨"OEBPS/toc.ncx", .doc (tocDoc st), cfg.compressionType⟩ ::
  ⟨"OEBPS/content.opf", .doc (opfDoc st), cfg.compressionType⟩ ::
  ⟨"OEBPS/nav.xhtml", .doc (navDoc st.manga.title), cfg.compressionType⟩ ::
  pageEntries cfg st

/-- `EpubPlugin.write` (epub.py lines 480-524) at archive level:
`zipfile.ZipFile(path, "a" if os.path.exists(path) else "w", ...)` appends
to an archive that already exists at `path` and creates a fresh one
otherwise.  `disk` is the archive currently at `path` (`none` when the path
does not exist); the result is the archive afterwards. -/
def write (cfg : ZipConfig) (st : EpubPlugin) (disk : Option (List Entry)) : List Entry :=
  match disk with
  | some old => old ++ writtenEntries cfg st
  | none => writtenEntries cfg st

/-- The exception type of epub.py lines 41-44 (`EpubMissingDependencies`,
a `MangaDexException` carrying the fixed message). -/
inductive MangaDexException where
  | epubMissingDependencies (msg : String)
deriving Repr, DecidableEq

/-- `EPUBFile.check_dependecies` (epub.py lines 529-531): raise
`EpubMissingDependencies` when the lxml/bs4/Pillow import probe failed
(`epub_ready`, epub.py lines 46-53). -/
def check_dependecies (epubReady : Bool) : Except MangaDexException Unit :=
  if !epubReady then
    .error (.epubMissingDependencies "`lxml`, `bs4` and `Pillow` is not installed")
  else .ok ()

/-- Modelled from the spec: the call site that runs `check_dependecies` is the
format framework (`format/base.py`), which is not among the sources here; §7
of the spec states that the capability check "fails fast at builder
construction, before any content is processed".  Builder construction
therefore runs `check_dependecies` first and only on success builds the
initial `EpubPlugin` state. -/
def constructBuilder (epubReady : Bool) (manga : Manga) (lang : String) :
    Except MangaDexException EpubPlugin :=
  match check_dependecies epubReady with
  | .error e => .error e
  | .ok _ => .ok (initPlugin manga lang)

/-! ## Committed-state traces

`_create_manifest_item` performs two manifest appends and
`_create_spine_item` one spine append; these are the only plugin-state
mutations inside `create_page`'s loop (`_create_toc_item` extends the
loop-local navPoint).  The trace below lists every state the plugin passes
through during a run, including those mid-call snapshots. -/

/-- The states the plugin passes through while registering one image: after
each of `_create_manifest_item`'s two appends and after
`_create_spine_item`. -/
def imageCommitStates (g pos : Nat) (im : Img) (st : EpubPlugin) : List EpubPlugin :=
  [ appendPageItem g pos st,
    appendImageItem g pos im (appendPageItem g pos st),
    create_spine_item g pos (create_manifest_item g pos im st) ]

/-- The committed states of `create_page`'s image loop. -/
def loopTrace (g : Nat) : Nat → List Img → EpubPlugin → List EpubPlugin
  | _, [], _ => []
  | pos, im :: ims, st =>
      imageCommitStates g pos im st
        ++ loopTrace g (pos + 1) ims (create_spine_item g pos (create_manifest_item g pos im st))

/-- Every committed state of a run of `create_page` calls: for each call its
mid-loop states followed by the state at the call's return. -/
def runTrace : List (String × List Img) → EpubPlugin → List EpubPlugin
  | [], _ => []
  | (title, images) :: rest, st =>
      loopTrace st.pos 1 images st
        ++ (create_page title images st :: runTrace rest (create_page title images st))

/-- The spine-to-manifest consistency invariant: every `<itemref>` of the
spine refers to the id of some manifest `<item>`. -/
def spineConsistent (st : EpubPlugin) : Prop :=
  ∀ s ∈ st.spine, ∃ it ∈ st.manifest, it.id = s.idref

instance (st : EpubPlugin) : Decidable (spineConsistent st) := by
  unfold spineConsistent
  infer_instance

/-! ## Characterization of the state after `create_page` and after a run -/

/-- The manifest items `create_page`'s loop appends for `images`, item
indices counted from `i`. -/
def manifestChunk (g : Nat) : Nat → List Img → List ManifestItem
  | _, [] => []
  | i, im :: ims =>
      xhtmlManifestItem g i :: imageManifestItem g i im :: manifestChunk g (i + 1) ims

/-- The spine items `create_page`'s loop appends. -/
def spineChunk (g : Nat) : Nat → List Img → List SpineItem
  | _, [] => []
  | i, _ :: ims => ⟨xhtmlId g i⟩ :: spineChunk g (i + 1) ims

/-- The page-level navPoints `create_page`'s loop appends to the group
navPoint. -/
def tocChildrenChunk (g : Nat) : Nat → List Img → List NavPoint
  | _, [] => []
  | i, _ :: ims =>
      create_nav (tocId g i) ("Page " ++ Nat.repr i) (some (pageHref g i))
        :: tocChildrenChunk g (i + 1) ims

theorem pageLoop_eq (g : Nat) (title : String) :
    ∀ (images : List Img) (i : Nat) (st : EpubPlugin) (nav : NavPoint),
      pageLoop g title i images st nav =
        ({ st with manifest := st.manifest ++ manifestChunk g i images,
                   spine := st.spine ++ spineChunk g i images },
         images.map (fun im => mkPageDoc g title (basename im.path)),
         NavPoint.mk nav.id nav.label nav.src (nav.children ++ tocChildrenChunk g i images)) := by
  intro images
  induction images with
  | nil =>
    intro i st nav
    cases nav
    simp [pageLoop, manifestChunk, spineChunk, tocChildrenChunk,
      NavPoint.id, NavPoint.label, NavPoint.src, NavPoint.children]
  | cons im ims ih =>
    intro i st nav
    rw [pageLoop, ih]
    simp [create_manifest_item, appendPageItem, appendImageItem, create_spine_item,
      create_toc_item, create_nav, manifestChunk, spineChunk, tocChildrenChunk,
      NavPoint.id, NavPoint.label, NavPoint.src, NavPoint.children, List.append_assoc]

theorem create_page_eq (title : String) (images : List Img) (st : EpubPlugin) :
    create_page title images st =
      { st with
          pos := st.pos + 1,
          manifest := st.manifest ++ manifestChunk st.pos 1 images,
          spine := st.spine ++ spineChunk st.pos 1 images,
          navigation := st.navigation ++
            [NavPoint.mk (tocInitId st.pos) title (some (pageHref st.pos 1))
              (tocChildrenChunk st.pos 1 images)],
          pages := st.pages ++
            [(st.pos, images.map (fun im => mkPageDoc st.pos title (basename im.path)),
              images)] } := by
  rw [create_page, pageLoop_eq]
  simp [create_nav, NavPoint.id, NavPoint.label, NavPoint.src, NavPoint.children]

/-- The manifest a run appends, group indices counted from `p`. -/
def runManifest (p : Nat) : List (String × List Img) → List ManifestItem
  | [] => []
  | (_, images) :: rest => manifestChunk p 1 images ++ runManifest (p + 1) rest

/-- The spine a run appends. -/
def runSpine (p : Nat) : List (String × List Img) → List SpineItem
  | [] => []
  | (_, images) :: rest => spineChunk p 1 images ++ runSpine (p + 1) rest

/-- The navMap children a run appends. -/
def runNav (p : Nat) : List (String × List Img) → List NavPoint
  | [] => []
  | (title, images) :: rest =>
      NavPoint.mk (tocInitId p) title (some (pageHref p 1)) (tocChildrenChunk p 1 images)
        :: runNav (p + 1) rest

/-- The `_pages` entries a run appends. -/
def runPages (p : Nat) : List (String × List Img) → List (Nat × List Node × List Img)
  | [] => []
  | (title, images) :: rest =>
      (p, images.map (fun im => mkPageDoc p title (basename im.path)), images)
        :: runPages (p + 1) rest

theorem runCalls_eq :
    ∀ (calls : List (String × List Img)) (st : EpubPlugin),
      runCalls calls st =
        { st with
            pos := st.pos + calls.length,
            manifest := st.manifest ++ runManifest st.pos calls,
            spine := st.spine ++ runSpine st.pos calls,
            navigation := st.navigation ++ runNav st.pos calls,
            pages := st.pages ++ runPages st.pos calls } := by
  intro calls
  induction calls with
  | nil =>
    intro st
    cases st
    simp [runCalls, runManifest, runSpine, runNav, runPages]
  | cons c rest ih =>
    intro st
    obtain ⟨title, images⟩ := c
    rw [runCalls, ih, create_page_eq]
    simp [runManifest, runSpine, runNav, runPages, List.append_assoc]
    omega

theorem spineChunk_enum (g : Nat) :
    ∀ (images : List Img) (i : Nat),
      spineChunk g i images =
        (enumerateFrom i images).map (fun ic => (⟨xhtmlId g ic.1⟩ : SpineItem)) := by
  intro images
  induction images with
  | nil => intro i; simp [spineChunk, enumerateFrom]
  | cons im ims ih => intro i; simp [spineChunk, enumerateFrom, ih]

theorem manifestChunk_enum (g : Nat) :
    ∀ (images : List Img) (i : Nat),
      manifestChunk g i images =
        (enumerateFrom i images).flatMap
          (fun ic => [xhtmlManifestItem g ic.1, imageManifestItem g ic.1 ic.2]) := by
  intro images
  induction images with
  | nil => intro i; simp [manifestChunk, enumerateFrom]
  | cons im ims ih => intro i; simp [manifestChunk, enumerateFrom, ih]

theorem tocChildrenChunk_enum (g : Nat) :
    ∀ (images : List Img) (i : Nat),
      tocChildrenChunk g i images =
        (enumerateFrom i images).map
          (fun ic => create_nav (tocId g ic.1) ("Page " ++ Nat.repr ic.1)
            (some (pageHref g ic.1))) := by
  intro images
  induction images with
  | nil => intro i; simp [tocChildrenChunk, enumerateFrom]
  | cons im ims ih => intro i; simp [tocChildrenChunk, enumerateFrom, ih]

theorem runSpine_enum :
    ∀ (calls : List (String × List Img)) (p : Nat),
      runSpine p calls =
        (enumerateFrom p calls).flatMap
          (fun gc => (enumerateFrom 1 gc.2.2).map
            (fun ic => (⟨xhtmlId gc.1 ic.1⟩ : SpineItem))) := by
  intro calls
  induction calls with
  | nil => intro p; simp [runSpine, enumerateFrom]
  | cons c rest ih =>
    intro p
    obtain ⟨title, images⟩ := c
    simp [runSpine, enumerateFrom, ih, spineChunk_enum]

theorem runManifest_enum :
    ∀ (calls : List (String × List Img)) (p : Nat),
      runManifest p calls =
        (enumerateFrom p calls).flatMap
          (fun gc => (enumerateFrom 1 gc.2.2).flatMap
            (fun ic => [xhtmlManifestItem gc.1 ic.1, imageManifestItem gc.1 ic.1 ic.2])) := by
  intro calls
  induction calls with
  | nil => intro p; simp [runManifest, enumerateFrom]
  | cons c rest ih =>
    intro p
    obtain ⟨title, images⟩ := c
    simp [runManifest, enumerateFrom, ih, manifestChunk_enum]

theorem runNav_enum :
    ∀ (calls : List (String × List Img)) (p : Nat),
      runNav p calls =
        (enumerateFrom p calls).map
          (fun gc => NavPoint.mk (tocInitId gc.1) gc.2.1 (some (pageHref gc.1 1))
            (tocChildrenChunk gc.1 1 gc.2.2)) := by
  intro calls
  induction calls with
  | nil => intro p; simp [runNav, enumerateFrom]
  | cons c rest ih =>
    intro p
    obtain ⟨title, images⟩ := c
    simp [runNav, enumerateFrom, ih]

theorem runPages_enum :
    ∀ (calls : List (String × List Img)) (p : Nat),
      runPages p calls =
        (enumerateFrom p calls).map
          (fun gc => (gc.1, gc.2.2.map (fun im => mkPageDoc gc.1 gc.2.1 (basename im.path)),
            gc.2.2)) := by
  intro calls
  induction calls with
  | nil => intro p; simp [runPages, enumerateFrom]
  | cons c rest ih =>
    intro p
    obtain ⟨title, images⟩ := c
    simp [runPages, enumerateFrom, ih]

theorem spineChunk_length (g : Nat) :
    ∀ (images : List Img) (i : Nat), (spineChunk g i images).length = images.length := by
  intro images
  induction images with
  | nil => intro i; simp [spineChunk]
  | cons im ims ih => intro i; simp [spineChunk, ih]

theorem runSpine_length :
    ∀ (calls : List (String × List Img)) (p : Nat),
      (runSpine p calls).length = (calls.map (fun c => c.2.length)).sum := by
  intro calls
  induction calls with
  | nil => intro p; simp [runSpine]
  | cons c rest ih =>
    intro p
    obtain ⟨title, images⟩ := c
    simp [runSpine, spineChunk_length, ih]

theorem mem_enumerateFrom {α : Type} :
    ∀ (l : List α) (n : Nat) (p : Nat × α), p ∈ enumerateFrom n l → n ≤ p.1 := by
  intro l
  induction l with
  | nil => intro n p h; simp [enumerateFrom] at h
  | cons x xs ih =>
    intro n p h
    simp [enumerateFrom] at h
    rcases h with h | h
    · subst h; simp
    · have := ih (n + 1) p h
      omega

theorem enumerateFrom_pairwise {α : Type} :
    ∀ (l : List α) (n : Nat), (enumerateFrom n l).Pairwise (fun a b => a.1 < b.1) := by
  intro l
  induction l with
  | nil => intro n; simp [enumerateFrom]
  | cons x xs ih =>
    intro n
    rw [enumerateFrom, List.pairwise_cons]
    refine ⟨fun q hq => ?_, ih (n + 1)⟩
    have := mem_enumerateFrom xs (n + 1) q hq
    omega

/-! ## Preservation of spine-to-manifest consistency -/

theorem spineConsistent_append_manifest {st : EpubPlugin} (h : spineConsistent st)
    (more : List ManifestItem) :
    spineConsistent { st with manifest := st.manifest ++ more } := by
  intro s hs
  obtain ⟨it, hit, hid⟩ := h s hs
  exact ⟨it, List.mem_append_left _ hit, hid⟩

theorem spineConsistent_appendPageItem {st : EpubPlugin} (h : spineConsistent st)
    (g pos : Nat) : spineConsistent (appendPageItem g pos st) :=
  spineConsistent_append_manifest h _

theorem spineConsistent_appendImageItem {st : EpubPlugin} (h : spineConsistent st)
    (g pos : Nat) (im : Img) :
    spineConsistent (appendImageItem g pos im (appendPageItem g pos st)) :=
  spineConsistent_append_manifest (spineConsistent_append_manifest h _) _

theorem spineConsistent_step {st : EpubPlugin} (h : spineConsistent st)
    (g pos : Nat) (im : Img) :
    spineConsistent (create_spine_item g pos (create_manifest_item g pos im st)) := by
  intro s hs
  simp [create_spine_item, create_manifest_item, appendImageItem, appendPageItem] at hs ⊢
  rcases hs with hs | hs
  · obtain ⟨it, hit, hid⟩ := h s hs
    exact ⟨it, Or.inl hit, hid⟩
  · subst hs
    exact ⟨xhtmlManifestItem g pos, Or.inr (Or.inl rfl), rfl⟩

theorem spineConsistent_loopTrace (g : Nat) :
    ∀ (images : List Img) (pos : Nat) (st : EpubPlugin), spineConsistent st →
      ∀ st' ∈ loopTrace g pos images st, spineConsistent st' := by
  intro images
  induction images with
  | nil => intro pos st _ st' h'; simp [loopTrace] at h'
  | cons im ims ih =>
    intro pos st h st' h'
    simp only [loopTrace, imageCommitStates, List.cons_append, List.nil_append,
      List.mem_cons] at h'
    rcases h' with h' | h' | h' | h'
    · subst h'; exact spineConsistent_appendPageItem h g pos
    · subst h'; exact spineConsistent_appendImageItem h g pos im
    · subst h'; exact spineConsistent_step h g pos im
    · exact ih (pos + 1) _ (spineConsistent_step h g pos im) st' h'

theorem spineConsistent_chunk (g : Nat) :
    ∀ (images : List Img) (i : Nat), ∀ s ∈ spineChunk g i images,
      ∃ it ∈ manifestChunk g i images, it.id = s.idref := by
  intro images
  induction images with
  | nil => intro i s hs; simp [spineChunk] at hs
  | cons im ims ih =>
    intro i s hs
    simp only [spineChunk, List.mem_cons] at hs
    rcases hs with hs | hs
    · subst hs
      exact ⟨xhtmlManifestItem g i, by simp [manifestChunk], rfl⟩
    · obtain ⟨it, hit, hid⟩ := ih (i + 1) s hs
      exact ⟨it, by simp [manifestChunk, hit], hid⟩

theorem spineConsistent_create_page {st : EpubPlugin} (h : spineConsistent st)
    (title : String) (images : List Img) :
    spineConsistent (create_page title images st) := by
  rw [create_page_eq]
  intro s hs
  simp only [List.mem_append] at hs
  rcases hs with hs | hs
  · obtain ⟨it, hit, hid⟩ := h s hs
    exact ⟨it, List.mem_append_left _ hit, hid⟩
  · obtain ⟨it, hit, hid⟩ := spineConsistent_chunk st.pos images 1 s hs
    exact ⟨it, List.mem_append_right _ hit, hid⟩

theorem spineConsistent_runTrace :
    ∀ (calls : List (String × List Img)) (st : EpubPlugin), spineConsistent st →
      ∀ st' ∈ runTrace calls st, spineConsistent st' := by
  intro calls
  induction calls with
  | nil => intro st _ st' h'; simp [runTrace] at h'
  | cons c rest ih =>
    intro st h st' h'
    obtain ⟨title, images⟩ := c
    simp only [runTrace, List.mem_append, List.mem_cons] at h'
    rcases h' with h' | h' | h'
    · exact spineConsistent_loopTrace st.pos images 1 st h st' h'
    · subst h'; exact spineConsistent_create_page h title images
    · exact ih _ (spineConsistent_create_page h title images) st' h'

theorem spineConsistent_init (m : Manga) (lang : String) :
    spineConsistent (initPlugin m lang) := by
  intro s hs
  simp [initPlugin] at hs

theorem spineConsistent_runCalls :
    ∀ (calls : List (String × List Img)) (st : EpubPlugin), spineConsistent st →
      spineConsistent (runCalls calls st) := by
  intro calls
  induction calls with
  | nil => intro st h; exact h
  | cons c rest ih =>
    intro st h
    obtain ⟨title, images⟩ := c
    rw [runCalls]
    exact ih _ (spineConsistent_create_page h title images)

theorem enumerateFrom_map {α β : Type} (f : α → β) :
    ∀ (l : List α) (n : Nat),
      enumerateFrom n (l.map f) = (enumerateFrom n l).map (fun p => (p.1, f p.2)) := by
  intro l
  induction l with
  | nil => intro n; simp [enumerateFrom]
  | cons x xs ih => intro n; simp [enumerateFrom, ih]

/-! ## Uniqueness of the manifest ids in any reachable state -/

theorem manifestChunk_id_shape (g : Nat) :
    ∀ (images : List Img) (i : Nat) (s : String),
      s ∈ (manifestChunk g i images).map (fun it => it.id) →
      ∃ j, i ≤ j ∧ (s = xhtmlId g j ∨ s = imagesId g j) := by
  intro images
  induction images with
  | nil => intro i s h; simp [manifestChunk] at h
  | cons im ims ih =>
    intro i s h
    simp only [manifestChunk, List.map_cons, List.mem_cons] at h
    rcases h with h | h | h
    · exact ⟨i, Nat.le_refl i, Or.inl (by simpa [xhtmlManifestItem] using h)⟩
    · exact ⟨i, Nat.le_refl i, Or.inr (by simpa [imageManifestItem] using h)⟩
    · obtain ⟨j, hj, hs⟩ := ih (i + 1) s h
      exact ⟨j, by omega, hs⟩

theorem runManifest_id_shape :
    ∀ (calls : List (String × List Img)) (p : Nat) (s : String),
      s ∈ (runManifest p calls).map (fun it => it.id) →
      ∃ g j, p ≤ g ∧ (s = xhtmlId g j ∨ s = imagesId g j) := by
  intro calls
  induction calls with
  | nil => intro p s h; simp [runManifest] at h
  | cons c rest ih =>
    intro p s h
    obtain ⟨title, images⟩ := c
    simp only [runManifest, List.map_append, List.mem_append] at h
    rcases h with h | h
    · obtain ⟨j, _, hs⟩ := manifestChunk_id_shape p images 1 s h
      exact ⟨p, j, Nat.le_refl p, hs⟩
    · obtain ⟨g, j, hg, hs⟩ := ih (p + 1) s h
      exact ⟨g, j, by omega, hs⟩

theorem manifestChunk_ids_nodup (g : Nat) :
    ∀ (images : List Img) (i : Nat),
      ((manifestChunk g i images).map (fun it => it.id)).Nodup := by
  intro images
  induction images with
  | nil => intro i; simp [manifestChunk]
  | cons im ims ih =>
    intro i
    simp only [manifestChunk, List.map_cons, List.nodup_cons, List.mem_cons]
    refine ⟨?_, ?_, ih (i + 1)⟩
    · simp only [xhtmlManifestItem, imageManifestItem]
      push_neg
      refine ⟨xhtmlId_ne_imagesId g i g i, fun h => ?_⟩
      obtain ⟨j, hj, hs⟩ := manifestChunk_id_shape g ims (i + 1) _ h
      rcases hs with hs | hs
      · obtain ⟨_, hij⟩ := xhtmlId_inj hs
        omega
      · exact xhtmlId_ne_imagesId g i g j hs
    · simp only [imageManifestItem]
      intro h
      obtain ⟨j, hj, hs⟩ := manifestChunk_id_shape g ims (i + 1) _ h
      rcases hs with hs | hs
      · exact xhtmlId_ne_imagesId g j g i hs.symm
      · obtain ⟨_, hij⟩ := imagesId_inj hs
        omega

theorem runManifest_ids_nodup :
    ∀ (calls : List (String × List Img)) (p : Nat),
      ((runManifest p calls).map (fun it => it.id)).Nodup := by
  intro calls
  induction calls with
  | nil => intro p; simp [runManifest]
  | cons c rest ih =>
    intro p
    obtain ⟨title, images⟩ := c
    simp only [runManifest, List.map_append]
    refine List.Nodup.append (manifestChunk_ids_nodup p images 1) (ih (p + 1)) ?_
    intro s hs hs'
    obtain ⟨j, _, hj⟩ := manifestChunk_id_shape p images 1 s hs
    obtain ⟨g, k, hg, hk⟩ := runManifest_id_shape rest (p + 1) s hs'
    rcases hj with hj | hj <;> rcases hk with hk | hk
    · obtain ⟨hgg, _⟩ := xhtmlId_inj (hj ▸ hk)
      omega
    · exact xhtmlId_ne_imagesId p j g k (hj ▸ hk)
    · exact xhtmlId_ne_imagesId g k p j (hk ▸ hj)
    · obtain ⟨hgg, _⟩ := imagesId_inj (hj ▸ hk)
      omega

theorem xhtml_item_mem_chunk (g : Nat) :
    ∀ (images : List Img) (i j : Nat) (im : Img),
      (j, im) ∈ enumerateFrom i images →
      xhtmlManifestItem g j ∈ manifestChunk g i images := by
  intro images
  induction images with
  | nil => intro i j im h; simp [enumerateFrom] at h
  | cons x xs ih =>
    intro i j im h
    simp only [enumerateFrom, List.mem_cons] at h
    rcases h with h | h
    · injection h with hj _
      subst hj
      simp [manifestChunk]
    · have := ih (i + 1) j im h
      simp [manifestChunk, this]

theorem manifestChunk_sub_runManifest :
    ∀ (calls : List (String × List Img)) (p g : Nat) (title : String)
      (images : List Img),
      (g, title, images) ∈ enumerateFrom p calls →
      ∀ it ∈ manifestChunk g 1 images, it ∈ runManifest p calls := by
  intro calls
  induction calls with
  | nil => intro p g title images h; simp [enumerateFrom] at h
  | cons c rest ih =>
    intro p g title images h it hit
    obtain ⟨ctitle, cimages⟩ := c
    simp only [enumerateFrom, List.mem_cons] at h
    rcases h with h | h
    · injection h with hg hrest
      injection hrest with ht hi
      subst hg; subst ht; subst hi
      simp only [runManifest, List.mem_append]
      exact Or.inl hit
    · simp only [runManifest, List.mem_append]
      exact Or.inr (ih (p + 1) g title images h it hit)

/-! ## Claims -/

/-- C2: after every `create_page` (`add_group`) call returns — and in fact in
every committed state of the run, including the mid-call snapshots between
the two manifest appends and the spine append of one image registration —
every spine `<itemref>`'s idref equals the id of some existing manifest
`<item>`: the manifest entry of an image is committed no later than its spine
entry, so no committed state has a spine entry without its manifest entry. -/
theorem C2_spine_references_manifest (m : Manga) (lang : String)
    (calls : List (String × List Img)) :
    spineConsistent (runCalls calls (initPlugin m lang)) ∧
    ∀ st' ∈ runTrace calls (initPlugin m lang), spineConsistent st' :=
  ⟨spineConsistent_runCalls calls _ (spineConsistent_init m lang),
   spineConsistent_runTrace calls _ (spineConsistent_init m lang)⟩

/-- Witness for C2 at one group of one image: the final state and the first
mid-call committed state (after `_create_manifest_item`'s first append). -/
theorem C2_spine_references_manifest_witness :
    spineConsistent
      (runCalls [("Ch. 1", [⟨"p1.png", "image/png"⟩])]
        (initPlugin ⟨"abc123", "Demo", [], ["A", "B"]⟩ "en")) ∧
    spineConsistent
      (appendPageItem 0 1 (initPlugin ⟨"abc123", "Demo", [], ["A", "B"]⟩ "en")) :=
  ⟨(C2_spine_references_manifest ⟨"abc123", "Demo", [], ["A", "B"]⟩ "en"
      [("Ch. 1", [⟨"p1.png", "image/png"⟩])]).1,
   (C2_spine_references_manifest ⟨"abc123", "Demo", [], ["A", "B"]⟩ "en"
      [("Ch. 1", [⟨"p1.png", "image/png"⟩])]).2
     (appendPageItem 0 1 (initPlugin ⟨"abc123", "Demo", [], ["A", "B"]⟩ "en"))
     (by simp [runTrace, loopTrace, imageCommitStates, initPlugin])⟩

/-- C3: for every sequence of `create_page` (`add_group`) calls, the spine is
the concatenation, in group-registration order, of one entry per image in
arrival order (empty groups contributing nothing), and its length is the
total number of registered images. -/
theorem C3_spine_is_concatenation (m : Manga) (lang : String)
    (calls : List (String × List Img)) :
    (runCalls calls (initPlugin m lang)).spine =
      (enumerateFrom 0 calls).flatMap
        (fun gc => (enumerateFrom 1 gc.2.2).map
          (fun ic => (⟨xhtmlId gc.1 ic.1⟩ : SpineItem))) ∧
    (runCalls calls (initPlugin m lang)).spine.length =
      (calls.map (fun c => c.2.length)).sum := by
  rw [runCalls_eq]
  constructor
  · simp [initPlugin, runSpine_enum]
  · simp [initPlugin, runSpine_length]

/-- C6: `create_page` (`add_group`) on an empty image sequence appends exactly
one top-level navPoint for the group (consuming the next group index: `_pos`
advances and `_pages` records the group), and leaves the manifest and the
spine unchanged, with zero content pages. -/
theorem C6_empty_group (title : String) (st : EpubPlugin) :
    create_page title [] st =
      { st with
          pos := st.pos + 1,
          navigation := st.navigation ++
            [NavPoint.mk (tocInitId st.pos) title (some (pageHref st.pos 1)) []],
          pages := st.pages ++ [(st.pos, [], [])] } := by
  rw [create_page_eq]
  simp [manifestChunk, spineChunk, tocChildrenChunk]

/-- C5 counterexample: register a single empty group.  Its top-level navPoint
carries the target href `xhtml/0_1.xhtml`, but no manifest item — of any
type — has that href: the claim fails for the top-level navPoint of a group
with zero images. -/
theorem C5_counterexample :
    ((create_page "Ch. 1" [] (initPlugin ⟨"abc123", "Demo", [], []⟩ "en")).navigation.map
      NavPoint.src) = [some "xhtml/0_1.xhtml"] ∧
    ¬ ∃ it ∈ (create_page "Ch. 1" [] (initPlugin ⟨"abc123", "Demo", [], []⟩ "en")).manifest,
        it.href = "xhtml/0_1.xhtml" := by
  constructor
  · decide
  · decide

/-- C5 (amended): in every state reachable by `create_page` calls, every
page-level (child) navPoint's target href is the href of an existing manifest
item of the page type, and so is the top-level navPoint's target of every
group that registered at least one image (equivalently, whose navPoint has
children); only the top-level navPoint of an empty group targets a href — its
group's would-be first page — that no manifest item carries. -/
theorem C5_navpoint_hrefs (m : Manga) (lang : String)
    (calls : List (String × List Img)) :
    ∀ np ∈ (runCalls calls (initPlugin m lang)).navigation,
      (∀ c ∈ np.children, ∀ h, c.src = some h →
        ∃ it ∈ (runCalls calls (initPlugin m lang)).manifest,
          it.href = h ∧ it.mediaType = "application/xhtml+xml") ∧
      (np.children ≠ [] → ∀ h, np.src = some h →
        ∃ it ∈ (runCalls calls (initPlugin m lang)).manifest,
          it.href = h ∧ it.mediaType = "application/xhtml+xml") := by
  intro np hnp
  rw [runCalls_eq] at hnp ⊢
  simp only [initPlugin, List.nil_append] at hnp ⊢
  rw [runNav_enum] at hnp
  obtain ⟨⟨g, title, images⟩, hgc, rfl⟩ := List.mem_map.mp hnp
  constructor
  · intro c hc h hsrc
    simp only [NavPoint.children] at hc
    rw [tocChildrenChunk_enum] at hc
    obtain ⟨⟨i, im⟩, hi, rfl⟩ := List.mem_map.mp hc
    simp only [create_nav, NavPoint.src, Option.some.injEq] at hsrc
    subst hsrc
    refine ⟨xhtmlManifestItem g i, List.mem_append_right _
      (manifestChunk_sub_runManifest calls 0 g title images hgc _
        (xhtml_item_mem_chunk g images 1 i im hi)), rfl, rfl⟩
  · intro hne h hsrc
    simp only [NavPoint.src, Option.some.injEq] at hsrc
    subst hsrc
    cases images with
    | nil =>
      exfalso
      exact hne (by simp [NavPoint.children, tocChildrenChunk])
    | cons im ims =>
      refine ⟨xhtmlManifestItem g 1, List.mem_append_right _
        (manifestChunk_sub_runManifest calls 0 g title (im :: ims) hgc _
          (by simp [manifestChunk])), rfl, rfl⟩

/-- Witness for C5 at one group of one image: the group's single page-level
navPoint targets `xhtml/0_1.xhtml`, and a page-type manifest item with that
href exists. -/
theorem C5_navpoint_hrefs_witness :
    ∃ it ∈ (runCalls [("Ch. 1", [⟨"p1.png", "image/png"⟩])]
        (initPlugin ⟨"abc123", "Demo", [], []⟩ "en")).manifest,
      it.href = pageHref 0 1 ∧ it.mediaType = "application/xhtml+xml" :=
  (C5_navpoint_hrefs ⟨"abc123", "Demo", [], []⟩ "en"
      [("Ch. 1", [⟨"p1.png", "image/png"⟩])]
      (NavPoint.mk (tocInitId 0) "Ch. 1" (some (pageHref 0 1))
        [create_nav (tocId 0 1) ("Page " ++ Nat.repr 1) (some (pageHref 0 1))])
      (List.Mem.head _)).1
    (create_nav (tocId 0 1) ("Page " ++ Nat.repr 1) (some (pageHref 0 1)))
    (List.Mem.head _) (pageHref 0 1) rfl

/-- C7: the archive entries `write` emits come in exactly this order —
mimetype, container descriptor, navigation map (`OEBPS/toc.ncx`), package
document (`OEBPS/content.opf`), navigation XHTML (`OEBPS/nav.xhtml`), then
for every registered group in group-index order all of its content pages in
item order followed by all of its images — so each group's entries are
contiguous and ordered as the spine orders them. -/
theorem C7_archive_order (cfg : ZipConfig) (m : Manga) (lang : String)
    (calls : List (String × List Img)) :
    (writtenEntries cfg (runCalls calls (initPlugin m lang))).map (fun e => e.name) =
      ["mimetype", "META-INF/container.xml", "OEBPS/toc.ncx", "OEBPS/content.opf",
        "OEBPS/nav.xhtml"]
      ++ (enumerateFrom 0 calls).flatMap
          (fun gc =>
            (enumerateFrom 1 gc.2.2).map
              (fun ic => "OEBPS/xhtml/" ++ Nat.repr gc.1 ++ "_" ++ Nat.repr ic.1 ++ ".xhtml")
            ++ gc.2.2.map
              (fun im => "OEBPS/images/" ++ Nat.repr gc.1 ++ "_" ++ basename im.path)) := by
  rw [runCalls_eq]
  simp [writtenEntries, pageEntries, initPlugin, runPages_enum, enumerateFrom_map,
    List.map_flatMap, List.flatMap_map, List.map_map, Function.comp]
  rfl

theorem pages_entry_name_shape (cfg : ZipConfig) (st : EpubPlugin) :
    ∀ e ∈ pageEntries cfg st,
      (∃ r, e.name = "OEBPS/xhtml/" ++ r) ∨ ∃ r, e.name = "OEBPS/images/" ++ r := by
  intro e he
  simp only [pageEntries, List.mem_flatMap, List.mem_append, List.mem_map] at he
  obtain ⟨pg, _, he⟩ := he
  rcases he with ⟨pc, _, rfl⟩ | ⟨im, _, rfl⟩
  · exact Or.inl ⟨Nat.repr pg.1 ++ ("_" ++ (Nat.repr pc.1 ++ ".xhtml")),
      by simp [String.append_assoc]⟩
  · exact Or.inr ⟨Nat.repr pg.1 ++ ("_" ++ basename im.path),
      by simp [String.append_assoc]⟩

theorem fixed_doc_count (cfg : ZipConfig) (st : EpubPlugin) (docName : String)
    (hd : docName ∈ (["mimetype", "META-INF/container.xml", "OEBPS/toc.ncx",
      "OEBPS/content.opf", "OEBPS/nav.xhtml"] : List String)) :
    ((writtenEntries cfg st).map (fun e => e.name)).count docName = 1 := by
  simp only [List.mem_cons, List.not_mem_nil, or_false] at hd
  have hzero : ((pageEntries cfg st).map (fun e => e.name)).count docName = 0 := by
    rw [List.count_eq_zero]
    intro hmem
    rw [List.mem_map] at hmem
    obtain ⟨e, he, hne⟩ := hmem
    rcases pages_entry_name_shape cfg st e he with ⟨r, hr⟩ | ⟨r, hr⟩ <;>
      rcases hd with rfl | rfl | rfl | rfl | rfl <;>
        exact append_ne_of_take (by decide) r (hr ▸ hne)
  rcases hd with rfl | rfl | rfl | rfl | rfl <;>
    simp [writtenEntries, List.count_cons, hzero]

/-- C9: `write` opens the target in append mode when the path already exists
(so a second `write` against the same path appends a second copy of every
fixed package-level document into the same archive — each of the five fixed
entry names then occurs exactly twice) and creates a fresh archive when the
path does not exist. -/
theorem C9_append_mode (cfg : ZipConfig) (st : EpubPlugin) :
    write cfg st none = writtenEntries cfg st ∧
    (∀ old : List Entry, write cfg st (some old) = old ++ writtenEntries cfg st) ∧
    ∀ docName ∈ (["mimetype", "META-INF/container.xml", "OEBPS/toc.ncx",
        "OEBPS/content.opf", "OEBPS/nav.xhtml"] : List String),
      ((write cfg st (some (write cfg st none))).map (fun e => e.name)).count docName = 2 := by
  refine ⟨rfl, fun old => rfl, ?_⟩
  intro docName hdoc
  show ((writtenEntries cfg st ++ writtenEntries cfg st).map (fun e => e.name)).count
      docName = 2
  rw [List.map_append, List.count_append, fixed_doc_count cfg st docName hdoc]

/-- Witness for C9: after finalizing twice at the same fresh path with no
groups registered, the container descriptor appears twice. -/
theorem C9_append_mode_witness :
    ((write ⟨.deflated, none⟩ (initPlugin ⟨"abc123", "Demo", [], []⟩ "en")
        (some (write ⟨.deflated, none⟩ (initPlugin ⟨"abc123", "Demo", [], []⟩ "en")
          none))).map (fun e => e.name)).count "META-INF/container.xml" = 2 :=
  (C9_append_mode ⟨.deflated, none⟩ (initPlugin ⟨"abc123", "Demo", [], []⟩ "en")).2.2
    "META-INF/container.xml" (by simp)

/-- C10: when the host lacks the markup/image-inspection modules
(`epub_ready = false`), builder construction fails fast with the
`EpubMissingDependencies` error and no builder state is produced. -/
theorem C10_missing_dependencies (m : Manga) (lang : String) :
    constructBuilder false m lang =
      .error (.epubMissingDependencies "`lxml`, `bs4` and `Pillow` is not installed") ∧
    ∀ st : EpubPlugin, constructBuilder false m lang ≠ .ok st := by
  exact ⟨rfl, fun st h => by simp [constructBuilder, check_dependecies] at h⟩

/-- C1 (code bug): `write` stores the first entry `mimetype` with the
configured compression method like every other entry — `writestr('mimetype',
...)` at epub.py line 498 passes no `compress_type` override to force
`ZIP_STORED` — so with the environment configured to `deflated` the
format-identifier entry is compressed, although the claim (and the EPUB/OCF
format requirement it cites) demands it be stored uncompressed. -/
theorem C1_mimetype_compressed :
    ((write ⟨.deflated, some 9⟩ (initPlugin ⟨"abc123", "Demo", [], []⟩ "en") none).map
      (fun e => (e.name, e.method))).head? =
        some ("mimetype", CompressionMethod.deflated) ∧
    CompressionMethod.deflated ≠ CompressionMethod.stored := by
  exact ⟨rfl, by decide⟩

/-- C4: the identifier scheme is injective — for distinct (group, item)
coordinates with item index ≥ 1 the page manifest ids, the image manifest
ids and the page hrefs all differ, and a page id never collides with an
image id — and consequently the manifest ids of every builder state
reachable by `create_page` calls are unique package-wide. -/
theorem C4_identifier_injectivity :
    (∀ g₁ i₁ g₂ i₂ : Nat, 1 ≤ i₁ → 1 ≤ i₂ → (g₁, i₁) ≠ (g₂, i₂) →
      xhtmlId g₁ i₁ ≠ xhtmlId g₂ i₂ ∧ imagesId g₁ i₁ ≠ imagesId g₂ i₂ ∧
      pageHref g₁ i₁ ≠ pageHref g₂ i₂ ∧ xhtmlId g₁ i₁ ≠ imagesId g₂ i₂) ∧
    ∀ (m : Manga) (lang : String) (calls : List (String × List Img)),
      ((runCalls calls (initPlugin m lang)).manifest.map (fun it => it.id)).Nodup := by
  constructor
  · intro g₁ i₁ g₂ i₂ _ _ hne
    refine ⟨fun h => hne (by rcases xhtmlId_inj h with ⟨rfl, rfl⟩; rfl),
            fun h => hne (by rcases imagesId_inj h with ⟨rfl, rfl⟩; rfl),
            fun h => hne (by rcases pageHref_inj h with ⟨rfl, rfl⟩; rfl),
            xhtmlId_ne_imagesId g₁ i₁ g₂ i₂⟩
  · intro m lang calls
    rw [runCalls_eq]
    simp only [initPlugin, List.singleton_append, List.map_cons]
    refine List.nodup_cons.mpr ⟨?_, runManifest_ids_nodup calls 0⟩
    intro hmem
    obtain ⟨g, j, _, hs⟩ := runManifest_id_shape calls 0 _ hmem
    rcases hs with hs | hs
    · exact ncx_ne_xhtmlId g j hs
    · exact ncx_ne_imagesId g j hs

/-- Witness for C4 at the distinct coordinates (0, 1) and (0, 2). -/
theorem C4_identifier_injectivity_witness :
    xhtmlId 0 1 ≠ xhtmlId 0 2 ∧ imagesId 0 1 ≠ imagesId 0 2 ∧
    pageHref 0 1 ≠ pageHref 0 2 ∧ xhtmlId 0 1 ≠ imagesId 0 2 :=
  C4_identifier_injectivity.1 0 1 0 2 (by decide) (by decide) (by decide)

/-- C8 counterexample: for image `p1.png` of group 0, the img element's src
attribute in the built page document is `../images/0_p1.png`, which is not
the IdentityScheme image href `images/0_p1.png` the claim asserts it equals. -/
theorem C8_counterexample :
    (tagsIn "img" (mkPageDoc 0 "Demo" "p1.png")).map (getAttr "src") =
      [some "../images/0_p1.png"] ∧
    "../images/0_p1.png" ≠ imageHref 0 "p1.png" := by
  exact ⟨rfl, by decide⟩

/-- C8 (amended): the page document built for an image named `name` (the base
file name) of group `g` has head/title equal to the group title and exactly
one img element, whose src attribute is the image's IdentityScheme href
prefixed with `../` — the relative path from the `xhtml/` directory where the
page lives — and whose alt text is the image's base file name. -/
theorem C8_page_document (g : Nat) (title name : String) :
    tagsIn "title" (mkPageDoc g title name) = [Node.elem "title" [] [Node.text title]] ∧
    (tagsIn "img" (mkPageDoc g title name)).length = 1 ∧
    (tagsIn "img" (mkPageDoc g title name)).map (getAttr "src") =
      [some ("../" ++ imageHref g name)] ∧
    (tagsIn "img" (mkPageDoc g title name)).map (getAttr "alt") = [some name] := by
  refine ⟨?_, ?_, ?_, ?_⟩ <;>
    simp [mkPageDoc, tagsIn, tagsInList, getAttr, imageHref, ← String.append_assoc]
